import Mathlib

/-!
# Verification of the kiln-controller firing engine (`lib/oven.py`)

A shallow embedding of the pieces of the kiln controller that the testable
claims are about: the discretised PID controller, rate-based target
computation, profile loading (v1 legacy and v2 segment formats), seek-start
temperature inversion, segment validation, restart-state persistence
throttling, the cooling-constant regression, and the real temperature
sensor's sampling loop.

Python floats are modelled as rationals (`ℚ`); exact arithmetic is faithful
to the control flow of every claim below, none of which depends on rounding.
Wall-clock values (`time.time()`, `datetime` differences) enter the
embedding as explicit rational parameters.
-/

namespace Kiln

/-! ## PID controller (`PID.compute`, oven.py lines 2183–2282) -/

/-- PID-relevant configuration (module-global `config` in the source).
`throttle_below_temp` and `throttle_percent` participate in a Python
truthiness test (`if config.throttle_below_temp and config.throttle_percent`);
a value of `0` models an unset/falsy option. -/
structure PIDConfig where
  pid_control_window : ℚ
  throttle_below_temp : ℚ
  throttle_percent : ℚ

/-- Mutable PID state: the gains plus the two carried values (`iterm`,
`lastErr`). `lastNow` is replaced by passing the already-computed
`timeDelta` into `compute`. -/
structure PIDState where
  kp : ℚ
  ki : ℚ
  kd : ℚ
  iterm : ℚ
  lastErr : ℚ

/-- `sorted([-w, x, w])[1]` in the source: the median of the three values,
which for `0 ≤ w` is the clamp of `x` to `[-w, w]`. -/
def clampTo (w x : ℚ) : ℚ := max (-w) (min x w)

/-- The throttle branch of max heating fires exactly when both throttle
options are truthy and the setpoint is at or below the threshold
(`if config.throttle_below_temp and config.throttle_percent: if setpoint <=
config.throttle_below_temp`). -/
def throttleActive (cfg : PIDConfig) (setpoint : ℚ) : Prop :=
  cfg.throttle_below_temp ≠ 0 ∧ cfg.throttle_percent ≠ 0 ∧
    setpoint ≤ cfg.throttle_below_temp

instance (cfg : PIDConfig) (s : ℚ) : Decidable (throttleActive cfg s) := by
  unfold throttleActive; infer_instance

/-- Shallow embedding of `PID.compute(setpoint, ispoint, now)`.
`timeDelta` stands for `(now - self.lastNow).total_seconds()`; the source's
hardcoded `window_size = 100` is kept literally. Returns the duty-cycle
output together with the updated state. The trailing
`if output < 0: output = 0` (no active cooling) applies to every branch,
as in the source. -/
def PID.compute (cfg : PIDConfig) (st : PIDState)
    (setpoint ispoint timeDelta : ℚ) : ℚ × PIDState :=
  let window_size : ℚ := 100
  let error : ℚ := setpoint - ispoint
  if error < -1 * cfg.pid_control_window then
    -- kiln outside pid control window, max cooling; reset positive integral
    let iterm2 := if st.iterm > 0 then 0 else st.iterm
    let output : ℚ := 0
    (if output < 0 then 0 else output,
      { st with iterm := iterm2, lastErr := error })
  else if error > 1 * cfg.pid_control_window then
    -- kiln outside pid control window, max heating (optional throttle)
    let output : ℚ :=
      if throttleActive cfg setpoint then cfg.throttle_percent / 100 else 1
    (if output < 0 then 0 else output, { st with lastErr := error })
  else
    let p_term := st.kp * error
    let dErr := (error - st.lastErr) / timeDelta
    let d_term := st.kd * dErr
    let i_contribution := error * timeDelta * (1 / st.ki)
    let output_unclamped := p_term + st.iterm + d_term
    let output_clamped := clampTo window_size output_unclamped
    -- anti-windup: only accumulate the integral if output is not saturated
    let iterm2 :=
      if output_unclamped = output_clamped then st.iterm + i_contribution
      else st.iterm
    let output := output_clamped / window_size
    (if output < 0 then 0 else output,
      { st with iterm := iterm2, lastErr := error })

/-- A value is its own clamp exactly when it lies inside the window. -/
theorem clampTo_eq_self_iff (w x : ℚ) (hw : 0 ≤ w) :
    x = clampTo w x ↔ (-w ≤ x ∧ x ≤ w) := by
  unfold clampTo
  constructor
  · intro h
    constructor
    · calc -w ≤ max (-w) (min x w) := le_max_left _ _
        _ = x := h.symm
    · by_contra hx
      push_neg at hx
      have h1 : min x w = w := min_eq_right hx.le
      rw [h1, max_eq_right (by linarith : -w ≤ w)] at h
      exact absurd h (by linarith)
  · rintro ⟨h1, h2⟩
    rw [min_eq_left h2, max_eq_right h1]

end Kiln

namespace Kiln

/-- **C1.** For every call to `PID.compute` with error
`e = setpoint - ispoint`: if `e > pid_control_window` the returned output is
`1`, except that when `throttle_below_temp` and `throttle_percent` are
configured (truthy; the percent nonnegative, as a percentage is) and
`setpoint ≤ throttle_below_temp` the output is `throttle_percent / 100`;
and if `e < -pid_control_window` the output is `0` and the integral term
immediately after the call is `≤ 0` (a positive integral is reset to 0). -/
theorem pid_bang_bang (cfg : PIDConfig) (st : PIDState)
    (setpoint ispoint timeDelta : ℚ)
    (hW : 0 ≤ cfg.pid_control_window)
    (hp : 0 ≤ cfg.throttle_percent) :
    (setpoint - ispoint > cfg.pid_control_window →
      ¬ throttleActive cfg setpoint →
      (PID.compute cfg st setpoint ispoint timeDelta).1 = 1) ∧
    (setpoint - ispoint > cfg.pid_control_window →
      throttleActive cfg setpoint →
      (PID.compute cfg st setpoint ispoint timeDelta).1 =
        cfg.throttle_percent / 100) ∧
    (setpoint - ispoint < -cfg.pid_control_window →
      (PID.compute cfg st setpoint ispoint timeDelta).1 = 0 ∧
      (PID.compute cfg st setpoint ispoint timeDelta).2.iterm ≤ 0) := by
  refine ⟨?_, ?_, ?_⟩
  · intro he hthr
    have h1 : ¬ (setpoint - ispoint < -1 * cfg.pid_control_window) := by
      intro h; rw [neg_one_mul] at h; linarith
    have h2 : setpoint - ispoint > 1 * cfg.pid_control_window := by
      rw [one_mul]; exact he
    simp only [PID.compute, h1, if_false, h2, if_true, hthr]
    norm_num
  · intro he hthr
    have h1 : ¬ (setpoint - ispoint < -1 * cfg.pid_control_window) := by
      intro h; rw [neg_one_mul] at h; linarith
    have h2 : setpoint - ispoint > 1 * cfg.pid_control_window := by
      rw [one_mul]; exact he
    have h3 : ¬ (cfg.throttle_percent / 100 < 0) := not_lt.mpr (by positivity)
    simp only [PID.compute, h1, if_false, h2, if_true, hthr, h3]
  · intro he
    have h1 : setpoint - ispoint < -1 * cfg.pid_control_window := by
      rw [neg_one_mul]; exact he
    simp only [PID.compute, h1, if_true]
    refine ⟨by norm_num, ?_⟩
    by_cases h : st.iterm > 0
    · simp only [h, if_true]
      exact le_refl 0
    · simp only [h, if_false]
      exact le_of_not_gt h

/-- Witness for C1: window 100, throttle configured at (500 °, 40 %),
setpoint 400 ≤ 500, error 300 > 100 — output is `40 / 100`; and at
setpoint 50, process value 400, error −350 < −100 — output 0 and the
positive integral 7 is reset. -/
theorem pid_bang_bang_witness :
    (PID.compute ⟨100, 500, 40⟩ ⟨1, 1, 1, 7, 0⟩ 400 100 1).1 = 40 / 100 ∧
    (PID.compute ⟨100, 500, 40⟩ ⟨1, 1, 1, 7, 0⟩ 50 400 1).1 = 0 ∧
    (PID.compute ⟨100, 500, 40⟩ ⟨1, 1, 1, 7, 0⟩ 50 400 1).2.iterm ≤ 0 := by
  have h1 := pid_bang_bang ⟨100, 500, 40⟩ ⟨1, 1, 1, 7, 0⟩ 400 100 1
    (by norm_num) (by norm_num)
  have h2 := pid_bang_bang ⟨100, 500, 40⟩ ⟨1, 1, 1, 7, 0⟩ 50 400 1
    (by norm_num) (by norm_num)
  refine ⟨h1.2.1 (by norm_num) ⟨by norm_num, by norm_num, by norm_num⟩, ?_⟩
  exact h2.2.2 (by norm_num)

/-- **C2.** For every call to `PID.compute` whose error lies inside the
control window (`|e| ≤ pid_control_window`), with a positive time step:
if the unclamped sum `p_term + iterm + d_term` falls outside `[-100, 100]`,
the integral term after the call equals the integral term before the call
(no accumulation while saturated); otherwise the integral term increases by
`e * dt / ki`. -/
theorem pid_anti_windup (cfg : PIDConfig) (st : PIDState)
    (setpoint ispoint timeDelta : ℚ)
    (hdt : 0 < timeDelta)
    (hwin : |setpoint - ispoint| ≤ cfg.pid_control_window) :
    ((st.kp * (setpoint - ispoint) + st.iterm +
        st.kd * ((setpoint - ispoint - st.lastErr) / timeDelta) < -100 ∨
      100 < st.kp * (setpoint - ispoint) + st.iterm +
        st.kd * ((setpoint - ispoint - st.lastErr) / timeDelta)) →
      (PID.compute cfg st setpoint ispoint timeDelta).2.iterm = st.iterm) ∧
    ((-100 ≤ st.kp * (setpoint - ispoint) + st.iterm +
        st.kd * ((setpoint - ispoint - st.lastErr) / timeDelta) ∧
      st.kp * (setpoint - ispoint) + st.iterm +
        st.kd * ((setpoint - ispoint - st.lastErr) / timeDelta) ≤ 100) →
      (PID.compute cfg st setpoint ispoint timeDelta).2.iterm =
        st.iterm + (setpoint - ispoint) * timeDelta / st.ki) := by
  have hbound := abs_le.mp hwin
  have hw1 : ¬ (setpoint - ispoint < -1 * cfg.pid_control_window) := by
    intro h; rw [neg_one_mul] at h; linarith [hbound.1]
  have hw2 : ¬ (setpoint - ispoint > 1 * cfg.pid_control_window) := by
    intro h; rw [one_mul] at h; linarith [hbound.2]
  constructor
  · intro hu
    simp only [PID.compute, hw1, if_false, hw2]
    rw [if_neg]
    intro heq
    rw [clampTo_eq_self_iff _ _ (by norm_num)] at heq
    rcases hu with hu | hu
    · linarith [heq.1]
    · linarith [heq.2]
  · intro hu
    simp only [PID.compute, hw1, if_false, hw2]
    rw [if_pos]
    · rw [mul_one_div]
    · exact (clampTo_eq_self_iff _ _ (by norm_num)).mpr hu

/-- Witness for C2: gains 1, window 100, iterm 5, error 10, dt 2; the
unclamped sum is `10 + 5 + 5 = 20 ∈ [-100, 100]`, so the integral gains
`10·2/1 = 20`. -/
theorem pid_anti_windup_witness :
    (PID.compute ⟨100, 0, 0⟩ ⟨1, 1, 1, 5, 0⟩ 110 100 2).2.iterm = 25 := by
  have h := pid_anti_windup ⟨100, 0, 0⟩ ⟨1, 1, 1, 5, 0⟩ 110 100 2
    (by norm_num) (by norm_num)
  have h2 := h.2 ⟨by norm_num, by norm_num⟩
  norm_num at h2
  exact h2

end Kiln

namespace Kiln

/-! ## Segments and profiles (`Segment`, `Profile`, oven.py lines 1802–2180) -/

/-- A segment rate: a number (degrees/hour), or one of the string sentinels
`"max"` / `"cool"` from the source (tagged union, as the spec's design note
prescribes). -/
inductive Rate where
  | num (r : ℚ)
  | max
  | cool
deriving DecidableEq, Repr

/-- A firing segment (`Segment.__init__` stores `hold * 60`: the JSON value
is minutes, the field is seconds). -/
structure Segment where
  rate : Rate
  target : ℚ
  hold : ℚ
deriving DecidableEq, Repr

/-- `Segment(rate, target, hold)`: the constructor converts the hold from
minutes to seconds. -/
def mkSegment (rate : Rate) (target holdMinutes : ℚ) : Segment :=
  ⟨rate, target, holdMinutes * 60⟩

/-- `Segment.validate(previous_target)`: `true` means "does not raise".
Checks run only when a previous target is given and the rate is numeric;
a negative rate with increasing target or a positive rate with decreasing
target raises `ValueError`. -/
def Segment.validateOk (s : Segment) (previous_target : Option ℚ) : Bool :=
  match previous_target, s.rate with
  | some pt, Rate.num r =>
    if r < 0 ∧ s.target > pt then false
    else if r > 0 ∧ s.target < pt then false
    else true
  | _, _ => true

/-- The three-valued sign used to state the spec's claim about `validate`
("the sign of `rate` matches the sign of `target − previous_target`"). -/
def qsign (q : ℚ) : ℤ :=
  if 0 < q then 1 else if q < 0 then -1 else 0

theorem qsign_of_pos {q : ℚ} (h : 0 < q) : qsign q = 1 := by
  unfold qsign; rw [if_pos h]

theorem qsign_of_neg {q : ℚ} (h : q < 0) : qsign q = -1 := by
  unfold qsign; rw [if_neg (by linarith), if_pos h]

end Kiln

namespace Kiln

/-- **C6 (counterexample).** The claim "`validate` accepts iff the sign of
`rate` matches the sign of `target - previous_target`, or `rate == 0`" fails
at rate 100, previous target 500, target 500: sign 100 = 1 but
sign (500 − 500) = 0 and the rate is nonzero, so the claim demands
rejection — yet `validate` accepts (neither raise condition fires). -/
theorem validate_sign_counterexample :
    Segment.validateOk ⟨Rate.num 100, 500, 0⟩ (some 500) = true ∧
    ¬ (qsign 100 = qsign ((500 : ℚ) - 500) ∨ (100 : ℚ) = 0) := by
  constructor
  · simp [Segment.validateOk]
  · intro h
    rcases h with h | h
    · rw [qsign_of_pos (by norm_num), show ((500 : ℚ) - 500) = 0 by norm_num] at h
      simp [qsign] at h
    · norm_num at h

/-- **C6 (amended).** For every segment with numeric rate and every previous
target, `Segment.validate(previous_target)` accepts (does not raise) iff the
sign of `rate` matches the sign of `target - previous_target`, or
`rate == 0`, **or `target == previous_target`** (a rate toward an unchanged
target is accepted). -/
theorem segment_validate_sign (s : Segment) (pt r : ℚ)
    (hr : s.rate = Rate.num r) :
    s.validateOk (some pt) = true ↔
      (qsign r = qsign (s.target - pt) ∨ r = 0 ∨ s.target = pt) := by
  obtain ⟨rate, target, hold⟩ := s
  simp only at hr
  subst hr
  simp only [Segment.validateOk]
  split_ifs with h1 h2
  · simp only [Bool.false_eq_true, false_iff]
    push_neg
    obtain ⟨ha, hb⟩ := h1
    refine ⟨?_, by linarith, by linarith⟩
    rw [qsign_of_neg ha, qsign_of_pos (by simpa using hb : (0 : ℚ) < target - pt)]
    decide
  · simp only [Bool.false_eq_true, false_iff]
    push_neg
    obtain ⟨ha, hb⟩ := h2
    refine ⟨?_, by linarith, by linarith⟩
    rw [qsign_of_pos ha, qsign_of_neg (by simpa using hb : target - pt < (0 : ℚ))]
    decide
  · constructor
    · intro _
      push_neg at h1 h2
      rcases lt_trichotomy r 0 with hr0 | hr0 | hr0
      · have ht : target ≤ pt := by
          by_contra hc
          push_neg at hc
          exact absurd (h1 hr0) (by simpa using hc)
        rcases eq_or_lt_of_le ht with he | hlt
        · exact Or.inr (Or.inr he)
        · refine Or.inl ?_
          rw [qsign_of_neg hr0, qsign_of_neg (by linarith : target - pt < 0)]
      · exact Or.inr (Or.inl hr0)
      · have ht : pt ≤ target := by
          by_contra hc
          push_neg at hc
          exact absurd (h2 hr0) (by simpa using hc)
        rcases eq_or_lt_of_le ht with he | hlt
        · exact Or.inr (Or.inr he.symm)
        · refine Or.inl ?_
          rw [qsign_of_pos hr0, qsign_of_pos (by linarith : (0 : ℚ) < target - pt)]
    · intro _
      rfl

/-- Witness for C6 (amended): rate 100 toward a higher target (700 from 500)
is accepted, via the amended equivalence. -/
theorem segment_validate_sign_witness :
    Segment.validateOk ⟨Rate.num 100, 700, 0⟩ (some 500) = true :=
  (segment_validate_sign ⟨Rate.num 100, 700, 0⟩ 500 100 rfl).mpr
    (Or.inl (by rw [qsign_of_pos (by norm_num),
      qsign_of_pos (by norm_num : (0 : ℚ) < 700 - 500)]))

end Kiln

namespace Kiln

/-! ## Legacy (v1) profile loading (`Profile._load_legacy`, lines 1885–1911) -/

/-- One iteration of the `_load_legacy` conversion loop, processing the
consecutive point pair `(prev, curr)` against the segment list built so far:
a nonzero temperature change becomes a ramp segment; a zero change merges its
duration into the last segment's hold when that segment targets the same
temperature, and otherwise becomes a standalone hold segment. Pairs with
nonpositive time difference are skipped. -/
def legacyStep (segments : List Segment) (prev curr : ℚ × ℚ) : List Segment :=
  let time_diff := curr.1 - prev.1
  let temp_diff := curr.2 - prev.2
  if 0 < time_diff then
    if temp_diff ≠ 0 then
      segments ++ [mkSegment (Rate.num (temp_diff / time_diff * 3600)) curr.2 0]
    else
      let hold_minutes := time_diff / 60
      match segments.getLast? with
      | some lastSeg =>
        if lastSeg.target = curr.2 then
          segments.dropLast ++
            [{ lastSeg with hold := lastSeg.hold + hold_minutes * 60 }]
        else segments ++ [mkSegment (Rate.num 0) curr.2 hold_minutes]
      | none => segments ++ [mkSegment (Rate.num 0) curr.2 hold_minutes]
  else segments

/-- The `for i in range(1, len(data))` loop of `_load_legacy`. -/
def legacyGo (prev : ℚ × ℚ) : List (ℚ × ℚ) → List Segment → List Segment
  | [], segments => segments
  | curr :: rest, segments => legacyGo curr rest (legacyStep segments prev curr)

/-- `Profile._load_legacy`: convert a v1 `(t_seconds, temp)` point list into
segments. -/
def loadLegacySegs (data : List (ℚ × ℚ)) : List Segment :=
  match data with
  | [] => []
  | p :: rest => legacyGo p rest []

end Kiln

namespace Kiln

/-- **C7.** Loading a v1 profile converts each consecutive point pair with
nonzero temperature change into a ramp segment with rate
`3600 * dTemp / dTime`, and merges each zero-change pair's duration into the
preceding segment's hold (when that segment exists and targets the same
temperature); in particular, for `[[0,100],[3600,200],[7200,200],[10800,200]]`
the resulting segment list is exactly one ramp segment with target 200 and
hold 7200 seconds. -/
theorem legacy_load_merge :
    (∀ (segments : List Segment) (prev curr : ℚ × ℚ),
      0 < curr.1 - prev.1 → curr.2 - prev.2 ≠ 0 →
      legacyStep segments prev curr =
        segments ++
          [⟨Rate.num (3600 * (curr.2 - prev.2) / (curr.1 - prev.1)), curr.2, 0⟩]) ∧
    (∀ (segments : List Segment) (lastSeg : Segment) (prev curr : ℚ × ℚ),
      0 < curr.1 - prev.1 → curr.2 - prev.2 = 0 →
      segments.getLast? = some lastSeg → lastSeg.target = curr.2 →
      legacyStep segments prev curr =
        segments.dropLast ++
          [{ lastSeg with hold := lastSeg.hold + (curr.1 - prev.1) }]) ∧
    loadLegacySegs [(0, 100), (3600, 200), (7200, 200), (10800, 200)] =
      [⟨Rate.num 100, 200, 7200⟩] := by
  refine ⟨?_, ?_, ?_⟩
  · intro segments prev curr ht hd
    simp only [legacyStep, if_pos ht, if_pos hd, mkSegment]
    have h1 : (curr.2 - prev.2) / (curr.1 - prev.1) * 3600 =
        3600 * (curr.2 - prev.2) / (curr.1 - prev.1) := by
      rw [div_mul_eq_mul_div, mul_comm]
    rw [h1]
    simp
  · intro segments lastSeg prev curr ht hd hlast htarget
    simp only [legacyStep, if_pos ht, hd]
    simp only [if_neg (by simp : ¬ (0 : ℚ) ≠ 0), hlast, htarget, if_pos rfl]
    have h1 : (curr.1 - prev.1) / 60 * 60 = curr.1 - prev.1 :=
      div_mul_cancel₀ _ (by norm_num)
    rw [h1]
    simp
  · norm_num [loadLegacySegs, legacyGo, legacyStep, mkSegment]

end Kiln

namespace Kiln

/-- C7 witness: the ramp rule at the pair `(0,100) → (3600,200)` gives a
rate-100 ramp, and the merge rule at `(3600,200) → (7200,200)` adds 3600 s
of hold to it. -/
theorem legacy_load_merge_witness :
    legacyStep [] (0, 100) (3600, 200) = [⟨Rate.num 100, 200, 0⟩] ∧
    legacyStep [⟨Rate.num 100, 200, 0⟩] (3600, 200) (7200, 200) =
      [⟨Rate.num 100, 200, 3600⟩] := by
  constructor
  · have h1 := legacy_load_merge.1 [] (0, 100) (3600, 200)
      (by norm_num) (by norm_num)
    rw [h1]
    norm_num
  · have h2 := legacy_load_merge.2.1 [⟨Rate.num 100, 200, 0⟩]
      ⟨Rate.num 100, 200, 0⟩ (3600, 200) (7200, 200)
      (by norm_num) (by norm_num) (by simp) rfl
    rw [h2]
    norm_num

end Kiln

namespace Kiln

/-! ## v2 profile loading (`Profile._load_v2`, oven.py lines 1913–1952) -/

/-- Which unit conversion `_load_v2` applies, determined by comparing the
profile's `temp_units` with `config.temp_scale`. -/
inductive UnitConv where
  | cToF
  | fToC
  | keep
deriving DecidableEq

/-- Temperature conversion applied to `start_temp` and each target. -/
def convTemp : UnitConv → ℚ → ℚ
  | .cToF, t => t * 9 / 5 + 32
  | .fToC, t => (t - 32) * 5 / 9
  | .keep, t => t

/-- Rate conversion: only numeric rates are scaled (`isinstance(rate,
(int, float))` in the source); `"max"` / `"cool"` pass through. -/
def convRate : UnitConv → Rate → Rate
  | .cToF, .num r => .num (r * 9 / 5)
  | .fToC, .num r => .num (r * 5 / 9)
  | _, r => r

/-- One v2 segment JSON object, modelled with the keys the loader and the
claim mention: `_load_v2` reads `seg["rate"]`, `seg["target"]` and
`seg.get("hold", 0)`; a value stored under the distinct key `hold_minutes`
is representable here but never read by the loader. -/
structure SegJson where
  rate : Rate
  target : ℚ
  hold : Option ℚ
  hold_minutes : Option ℚ
deriving DecidableEq

/-- The segment loop of `_load_v2`: convert units, build the `Segment`
(which turns the minutes value of `seg.get("hold", 0)` into seconds),
validate against the previous target (`ValueError` modelled as `none`),
and append. -/
def loadV2Aux (conv : UnitConv) (previous_target : ℚ) :
    List SegJson → Option (List Segment)
  | [] => some []
  | s :: rest =>
    let target := convTemp conv s.target
    let rate := convRate conv s.rate
    let seg := mkSegment rate target (s.hold.getD 0)
    if seg.validateOk (some previous_target) then
      match loadV2Aux conv target rest with
      | some segs => some (seg :: segs)
      | none => none
    else none

/-- `Profile._load_v2` on the parsed object: convert the start temperature,
then load the segments (the first segment validates against the converted
start temperature). -/
def loadV2 (conv : UnitConv) (start_temp : ℚ) (segs : List SegJson) :
    Option (ℚ × List Segment) :=
  let st := convTemp conv start_temp
  match loadV2Aux conv st segs with
  | some out => some (st, out)
  | none => none

end Kiln

namespace Kiln

/-- **C8 (counterexample).** The claim says each v2 segment's hold is read
from its `hold_minutes` JSON field. It fails: a segment carrying 60 minutes
under `hold_minutes` (and no `hold` key) loads with hold `0`, not
`60 * 60 = 3600` seconds — the loader reads `seg.get("hold", 0)`. -/
theorem v2_hold_key_counterexample :
    loadV2Aux UnitConv.keep 500 [⟨Rate.num 0, 500, none, some 60⟩] =
      some [⟨Rate.num 0, 500, 0⟩] ∧ (0 : ℚ) ≠ 60 * 60 := by
  constructor
  · norm_num [loadV2Aux, mkSegment, Segment.validateOk, convTemp, convRate]
  · norm_num

/-- **C8 (amended).** For every v2 segment list that loads successfully, the
hold duration of each loaded segment is read from that segment's `hold` JSON
field (a value in minutes, stored internally in seconds, defaulting to 0
when absent); a hold carried under any other key — `hold_minutes` included —
is ignored. -/
theorem v2_hold_from_hold_key (conv : UnitConv) :
    ∀ (segs : List SegJson) (pt : ℚ) (out : List Segment),
      loadV2Aux conv pt segs = some out →
      out.length = segs.length ∧
      ∀ i (hi : i < out.length) (hi2 : i < segs.length),
        (out.get ⟨i, hi⟩).hold = ((segs.get ⟨i, hi2⟩).hold.getD 0) * 60 := by
  intro segs
  induction segs with
  | nil =>
    intro pt out h
    simp only [loadV2Aux, Option.some.injEq] at h
    subst h
    refine ⟨rfl, ?_⟩
    intro i hi hi2
    exact absurd hi (by simp)
  | cons s rest ih =>
    intro pt out h
    simp only [loadV2Aux] at h
    by_cases hv : (mkSegment (convRate conv s.rate) (convTemp conv s.target)
        (s.hold.getD 0)).validateOk (some pt) = true
    · rw [if_pos hv] at h
      cases hrec : loadV2Aux conv (convTemp conv s.target) rest with
      | none =>
        rw [hrec] at h
        exact absurd h (by simp)
      | some segs2 =>
        rw [hrec] at h
        simp only [Option.some.injEq] at h
        subst h
        obtain ⟨hlen, hidx⟩ := ih (convTemp conv s.target) segs2 hrec
        constructor
        · simp [hlen]
        · intro i hi hi2
          cases i with
          | zero => simp [mkSegment]
          | succ n =>
            exact hidx n (Nat.lt_of_succ_lt_succ hi) (Nat.lt_of_succ_lt_succ hi2)
    · rw [if_neg hv] at h
      exact absurd h (by simp)

/-- C8 witness: one segment with `hold: 45` (minutes, under the `hold` key)
loads with internal hold `45 * 60 = 2700` seconds, via the amended theorem. -/
theorem v2_hold_from_hold_key_witness :
    loadV2Aux UnitConv.keep 500 [⟨Rate.num 0, 500, some 45, none⟩] =
      some [⟨Rate.num 0, 500, 2700⟩] ∧ (2700 : ℚ) = 45 * 60 := by
  have hload : loadV2Aux UnitConv.keep 500 [⟨Rate.num 0, 500, some 45, none⟩] =
      some [⟨Rate.num 0, 500, 2700⟩] := by
    norm_num [loadV2Aux, mkSegment, Segment.validateOk, convTemp, convRate]
  have h := v2_hold_from_hold_key UnitConv.keep
    [⟨Rate.num 0, 500, some 45, none⟩] 500 [⟨Rate.num 0, 500, 2700⟩] hload
  have h0 := h.2 0 (by norm_num) (by norm_num)
  exact ⟨hload, by simpa using h0⟩

end Kiln

namespace Kiln

/-! ## Seek-start (`Profile.find_next_time_from_temperature` and
`find_x_given_y_on_line_from_two_points`, oven.py lines 2090–2138) -/

/-- `x = (y−y1)(x2−x1)/(y2−y1) + x1` with the source's three guards:
points in wrong time order, flat-or-negative temperature slope, or `y`
outside the segment range all yield `None`. -/
def find_x_given_y_on_line_from_two_points (y : ℚ) (point1 point2 : ℚ × ℚ) :
    Option ℚ :=
  if point1.1 > point2.1 then none
  else if point1.2 ≥ point2.2 then none
  else if y < point1.2 ∨ y > point2.2 then none
  else some ((y - point1.2) * (point2.1 - point1.1) / (point2.2 - point1.2)
    + point1.1)

/-- The scan loop of `find_next_time_from_temperature`: `prev` is
`data[index-1]`, the list argument the remaining points from `index` on.
When the bracket guard (`point2[1] >= T` and `data[index-1][1] <= T`) holds,
a successful inversion breaks with its result; a failed inversion on a flat
pair breaks with the flat pair's start time; otherwise the scan continues
(keeping the default 0). -/
def findNextAux (temperature : ℚ) (prev : ℚ × ℚ) :
    List (ℚ × ℚ) → Option ℚ
  | [] => none
  | point2 :: rest =>
    if point2.2 ≥ temperature ∧ prev.2 ≤ temperature then
      match find_x_given_y_on_line_from_two_points temperature prev point2 with
      | some result => some result
      | none =>
        if prev.2 = point2.2 then some prev.1
        else findNextAux temperature point2 rest
    else findNextAux temperature point2 rest

/-- `Profile.find_next_time_from_temperature(temperature)` over the
profile's `(time, temp)` point list; `0` is the default when no iteration
breaks. -/
def find_next_time_from_temperature (data : List (ℚ × ℚ))
    (temperature : ℚ) : ℚ :=
  match data with
  | [] => 0
  | p :: rest => (findNextAux temperature p rest).getD 0

/-- The consecutive point pairs `(data[i-1], data[i])` of a point list —
the segments the scan walks. -/
def consecPairs : List (ℚ × ℚ) → List ((ℚ × ℚ) × (ℚ × ℚ))
  | [] => []
  | [_] => []
  | a :: b :: rest => (a, b) :: consecPairs (b :: rest)

/-- `T` lies on a flat (zero-slope) segment of the point list. -/
def liesOnFlat (data : List (ℚ × ℚ)) (T : ℚ) : Prop :=
  ∃ p ∈ consecPairs data, p.1.2 = T ∧ p.2.2 = T

/-- `T` lies on a strictly increasing segment of the point list. -/
def onIncreasing (data : List (ℚ × ℚ)) (T : ℚ) : Prop :=
  ∃ p ∈ consecPairs data, p.1.2 < p.2.2 ∧ p.1.2 ≤ T ∧ T ≤ p.2.2

instance (data : List (ℚ × ℚ)) (T : ℚ) : Decidable (liesOnFlat data T) := by
  unfold liesOnFlat; infer_instance

instance (data : List (ℚ × ℚ)) (T : ℚ) : Decidable (onIncreasing data T) := by
  unfold onIncreasing; infer_instance

/-- The scan's bracket guard as a Boolean predicate on a pair. -/
def bracketGuard (T : ℚ) (p : (ℚ × ℚ) × (ℚ × ℚ)) : Bool :=
  decide (p.1.2 ≤ T) && decide (T ≤ p.2.2)

end Kiln

namespace Kiln

/-- **C5 (counterexample).** The claim "for T on a flat segment and on no
strictly increasing segment, `find_next_time_from_temperature(T)` returns 0"
fails on `data = [(0,200),(3600,100),(7200,100)]`, `T = 100`: T lies only on
the flat segment (the other segment is decreasing), yet the function returns
3600 — the flat-segment fallback at lines 2133–2136 returns the flat
segment's start time, not 0. -/
theorem seek_flat_counterexample :
    liesOnFlat [(0, 200), (3600, 100), (7200, 100)] 100 ∧
    ¬ onIncreasing [(0, 200), (3600, 100), (7200, 100)] 100 ∧
    find_next_time_from_temperature [(0, 200), (3600, 100), (7200, 100)] 100
      = 3600 ∧ (3600 : ℚ) ≠ 0 := by
  refine ⟨?_, ?_, ?_, by norm_num⟩
  · exact ⟨(((3600 : ℚ), (100 : ℚ)), ((7200 : ℚ), (100 : ℚ))),
      by norm_num [consecPairs], rfl, rfl⟩
  · norm_num [onIncreasing, consecPairs]
  · norm_num [find_next_time_from_temperature, findNextAux,
      find_x_given_y_on_line_from_two_points]

end Kiln

namespace Kiln

/-- Scan lemma: when `T` lies on some flat pair of the walked segments and on
no strictly increasing pair containing it, the scan stops at the first
bracketing pair, which is necessarily flat at `T`, and returns its start
time. -/
theorem findNextAux_flat (T : ℚ) :
    ∀ (rest : List (ℚ × ℚ)) (prev : ℚ × ℚ),
      (∃ p ∈ consecPairs (prev :: rest), p.1.2 = T ∧ p.2.2 = T) →
      (∀ p ∈ consecPairs (prev :: rest),
        ¬ (p.1.2 < p.2.2 ∧ p.1.2 ≤ T ∧ T ≤ p.2.2)) →
      ∃ p, (consecPairs (prev :: rest)).find? (bracketGuard T) = some p ∧
        p.1.2 = T ∧ p.2.2 = T ∧ findNextAux T prev rest = some p.1.1 := by
  intro rest
  induction rest with
  | nil =>
    intro prev hflat _
    obtain ⟨p, hp, _⟩ := hflat
    simp [consecPairs] at hp
  | cons point2 rest2 ih =>
    intro prev hflat hninc
    have hcons : consecPairs (prev :: point2 :: rest2) =
        (prev, point2) :: consecPairs (point2 :: rest2) := rfl
    by_cases hg : prev.2 ≤ T ∧ T ≤ point2.2
    · have hmem : (prev, point2) ∈ consecPairs (prev :: point2 :: rest2) := by
        rw [hcons]; exact List.mem_cons_self _ _
      have hge : point2.2 ≤ prev.2 := by
        by_contra hc
        push_neg at hc
        exact hninc _ hmem ⟨hc, hg.1, hg.2⟩
      have h1 : prev.2 = T := le_antisymm hg.1 (le_trans hg.2 hge)
      have h2 : point2.2 = T := le_antisymm (le_trans hge hg.1) hg.2
      refine ⟨(prev, point2), ?_, h1, h2, ?_⟩
      · rw [hcons]
        apply List.find?_cons_of_pos
        simp only [bracketGuard, Bool.and_eq_true, decide_eq_true_eq]
        exact ⟨hg.1, hg.2⟩
      · have hx : find_x_given_y_on_line_from_two_points T prev point2 = none := by
          unfold find_x_given_y_on_line_from_two_points
          by_cases hc : prev.1 > point2.1
          · rw [if_pos hc]
          · rw [if_neg hc, if_pos (le_of_eq (h2.trans h1.symm))]
        simp only [findNextAux]
        rw [if_pos ⟨le_of_eq h2.symm, le_of_eq h1⟩]
        simp only [hx]
        rw [if_pos (h1.trans h2.symm)]
    · have hflat2 : ∃ p ∈ consecPairs (point2 :: rest2),
          p.1.2 = T ∧ p.2.2 = T := by
        obtain ⟨p, hp, hp1, hp2⟩ := hflat
        rw [hcons] at hp
        rcases List.mem_cons.mp hp with he | hm
        · exfalso
          apply hg
          rw [he] at hp1 hp2
          exact ⟨le_of_eq hp1, ge_of_eq hp2⟩
        · exact ⟨p, hm, hp1, hp2⟩
      have hninc2 : ∀ p ∈ consecPairs (point2 :: rest2),
          ¬ (p.1.2 < p.2.2 ∧ p.1.2 ≤ T ∧ T ≤ p.2.2) := by
        intro p hm
        exact hninc p (by rw [hcons]; exact List.mem_cons_of_mem _ hm)
      obtain ⟨p, hfind, hp1, hp2, hres⟩ := ih point2 hflat2 hninc2
      refine ⟨p, ?_, hp1, hp2, ?_⟩
      · rw [hcons]
        rw [List.find?_cons_of_neg _ ?_]
        · exact hfind
        · simp only [bracketGuard, Bool.and_eq_true, decide_eq_true_eq]
          exact hg
      · simp only [findNextAux]
        rw [if_neg (fun hc => hg ⟨hc.2, hc.1⟩)]
        exact hres

/-- **C5 (amended).** For every profile point list and temperature `T` such
that `T` lies on a flat (zero-slope) segment and on no strictly increasing
segment, `find_next_time_from_temperature(T)` returns the **start time** of
the first segment that brackets `T` — which under these hypotheses is a flat
segment at `T` — rather than 0: the flat-segment fallback makes flat
segments eligible for seek-start. -/
theorem seek_flat_returns_flat_start (data : List (ℚ × ℚ)) (T : ℚ)
    (hflat : liesOnFlat data T) (hninc : ¬ onIncreasing data T) :
    ∃ p, (consecPairs data).find? (bracketGuard T) = some p ∧
      p.1.2 = T ∧ p.2.2 = T ∧
      find_next_time_from_temperature data T = p.1.1 := by
  match data with
  | [] =>
    exfalso
    obtain ⟨p, hp, _⟩ := hflat
    simp [consecPairs] at hp
  | [q] =>
    exfalso
    obtain ⟨p, hp, _⟩ := hflat
    simp [consecPairs] at hp
  | q :: r :: rest =>
    have hninc2 : ∀ p ∈ consecPairs (q :: r :: rest),
        ¬ (p.1.2 < p.2.2 ∧ p.1.2 ≤ T ∧ T ≤ p.2.2) := by
      intro p hm hc
      exact hninc ⟨p, hm, hc⟩
    obtain ⟨p, hfind, hp1, hp2, hres⟩ := findNextAux_flat T (r :: rest) q hflat hninc2
    refine ⟨p, hfind, hp1, hp2, ?_⟩
    simp only [find_next_time_from_temperature, hres, Option.getD_some]

/-- C5 witness (amended theorem): on `[(0,200),(3600,100),(7200,100)]` with
`T = 100` the hypotheses hold concretely and the returned time is 3600, the
start of the flat segment. -/
theorem seek_flat_returns_flat_start_witness :
    find_next_time_from_temperature [(0, 200), (3600, 100), (7200, 100)] 100
      = 3600 := by
  obtain ⟨p, hfind, h1, h2, hres⟩ := seek_flat_returns_flat_start
    [(0, 200), (3600, 100), (7200, 100)] 100
    ⟨(((3600 : ℚ), (100 : ℚ)), ((7200 : ℚ), (100 : ℚ))),
      by norm_num [consecPairs], rfl, rfl⟩
    (by norm_num [onIncreasing, consecPairs])
  have hf : (consecPairs [((0 : ℚ), (200 : ℚ)), (3600, 100), (7200, 100)]).find?
      (bracketGuard 100) = some ((3600, 100), (7200, 100)) := by
    rw [show consecPairs [((0 : ℚ), (200 : ℚ)), (3600, 100), (7200, 100)] =
      [(((0 : ℚ), (200 : ℚ)), ((3600 : ℚ), (100 : ℚ))),
       (((3600 : ℚ), (100 : ℚ)), ((7200 : ℚ), (100 : ℚ)))] from rfl]
    rw [List.find?_cons_of_neg _ (by
      simp only [bracketGuard, Bool.and_eq_false_iff, decide_eq_false_iff_not]
      norm_num)]
    rw [List.find?_cons_of_pos _ (by
      simp only [bracketGuard, Bool.and_eq_true, decide_eq_true_eq]
      norm_num)]
  rw [hf] at hfind
  simp only [Option.some.injEq] at hfind
  rw [hres, ← hfind]

end Kiln

namespace Kiln

/-! ## Rate-based live target (`Oven.calculate_rate_based_target`,
oven.py lines 580–653) -/

/-- The segment phase strings `'ramp'` / `'hold'`. -/
inductive Phase where
  | ramp
  | hold
deriving DecidableEq

/-- Configuration read by `calculate_rate_based_target`
(`getattr(config, 'rate_lookahead_seconds', 60)` and
`getattr(config, 'max_target_divergence', 50)`). -/
structure OvenConfig where
  rate_lookahead_seconds : ℚ
  max_target_divergence : ℚ

/-- The engine state the target computation reads. `segment_start_temp = 0`
models a falsy value (`None` or 0): the source tests it with
`if self.segment_start_temp`; `segment_start_time_set` models whether
`self.segment_start_time` is set (else the elapsed time collapses to 0). -/
structure SegState where
  segments : List Segment
  current_segment_index : ℕ
  segment_phase : Phase
  segment_start_temp : ℚ
  segment_start_time_set : Bool

/-- Shallow embedding of `Oven.calculate_rate_based_target`.
`legacyTarget` stands for `self.profile.get_target_temperature(self.runtime)`
(the fallback when the profile has no segments), `actual_temp` for the
sensor temperature plus offset, and `elapsed_wall` for
`(datetime.datetime.now() - self.segment_start_time).total_seconds()`. -/
def calculate_rate_based_target (cfg : OvenConfig) (st : SegState)
    (legacyTarget actual_temp elapsed_wall : ℚ) : ℚ :=
  if st.segments = [] then legacyTarget
  else if st.segments.length ≤ st.current_segment_index then 0
  else
    let segment := st.segments.getD st.current_segment_index ⟨Rate.num 0, 0, 0⟩
    if st.segment_phase = Phase.hold then segment.target
    else
      match segment.rate with
      | Rate.max => segment.target
      | Rate.cool => segment.target
      | Rate.num r =>
        if r = 0 then segment.target
        else
          let elapsed_seconds :=
            if st.segment_start_time_set then elapsed_wall else 0
          let elapsed_hours := elapsed_seconds / 3600
          let start_temp :=
            if st.segment_start_temp ≠ 0 then st.segment_start_temp
            else actual_temp
          let rate_based_ceiling := start_temp + r * elapsed_hours
          let effective_lookahead :=
            min elapsed_seconds cfg.rate_lookahead_seconds
          let effective_lookahead_hours := effective_lookahead / 3600
          let raw_lead := r * effective_lookahead_hours
          let lead :=
            if |raw_lead| > cfg.max_target_divergence then
              (if raw_lead > 0 then cfg.max_target_divergence
                else -cfg.max_target_divergence)
            else raw_lead
          let target_before_clamp := rate_based_ceiling + lead
          if r > 0 then min target_before_clamp segment.target
          else max target_before_clamp segment.target

/-- The source's lead cap (`abs(raw_lead) > max_divergence` branching) is the
clamp to `[-max_divergence, max_divergence]` when the cap is nonnegative. -/
theorem lead_cap_eq_clamp (d x : ℚ) (hd : 0 ≤ d) :
    (if |x| > d then (if x > 0 then d else -d) else x) = clampTo d x := by
  unfold clampTo
  by_cases h : |x| > d
  · rw [if_pos h]
    by_cases hx : x > 0
    · rw [if_pos hx]
      have hxd : d < x := by
        rw [abs_of_pos hx] at h
        exact h
      rw [min_eq_right hxd.le, max_eq_right (by linarith)]
    · rw [if_neg hx]
      push_neg at hx
      have hxd : x < -d := by
        rw [abs_of_nonpos hx] at h
        linarith
      rw [min_eq_left (by linarith : x ≤ d), max_eq_left (by linarith : x ≤ -d)]
  · rw [if_neg h]
    push_neg at h
    have hb := abs_le.mp h
    rw [min_eq_left hb.2, max_eq_right hb.1]

end Kiln

namespace Kiln

/-- **C3.** For every v2 ramp state whose current segment has a numeric
nonzero rate `r` (with a set segment start time, a truthy segment start
temperature, and a nonnegative divergence cap, as configured):
`calculate_rate_based_target` returns `clamp(ceiling + lead)` where
`ceiling = segment_start_temp + r * elapsed/3600`,
`lead = r * min(elapsed, rate_lookahead_seconds)/3600` clamped to
`[-max_target_divergence, +max_target_divergence]`, and the final clamp
keeps the result at or below the segment target when `r > 0` and at or
above it when `r < 0`. -/
theorem rate_based_target_formula (cfg : OvenConfig) (st : SegState)
    (legacyTarget actual_temp elapsed_wall r : ℚ)
    (hd : 0 ≤ cfg.max_target_divergence)
    (hne : st.segments ≠ [])
    (hidx : st.current_segment_index < st.segments.length)
    (hphase : st.segment_phase = Phase.ramp)
    (hrate : (st.segments.getD st.current_segment_index
      ⟨Rate.num 0, 0, 0⟩).rate = Rate.num r)
    (hr : r ≠ 0)
    (hstart : st.segment_start_temp ≠ 0)
    (htime : st.segment_start_time_set = true) :
    (calculate_rate_based_target cfg st legacyTarget actual_temp elapsed_wall =
      (if 0 < r then
        min (st.segment_start_temp + r * (elapsed_wall / 3600) +
          clampTo cfg.max_target_divergence
            (r * (min elapsed_wall cfg.rate_lookahead_seconds / 3600)))
          (st.segments.getD st.current_segment_index ⟨Rate.num 0, 0, 0⟩).target
      else
        max (st.segment_start_temp + r * (elapsed_wall / 3600) +
          clampTo cfg.max_target_divergence
            (r * (min elapsed_wall cfg.rate_lookahead_seconds / 3600)))
          (st.segments.getD st.current_segment_index
            ⟨Rate.num 0, 0, 0⟩).target)) ∧
    (0 < r →
      calculate_rate_based_target cfg st legacyTarget actual_temp elapsed_wall ≤
      (st.segments.getD st.current_segment_index ⟨Rate.num 0, 0, 0⟩).target) ∧
    (r < 0 →
      (st.segments.getD st.current_segment_index ⟨Rate.num 0, 0, 0⟩).target ≤
      calculate_rate_based_target cfg st legacyTarget actual_temp elapsed_wall) := by
  have hmain : calculate_rate_based_target cfg st legacyTarget actual_temp
      elapsed_wall =
      (if 0 < r then
        min (st.segment_start_temp + r * (elapsed_wall / 3600) +
          clampTo cfg.max_target_divergence
            (r * (min elapsed_wall cfg.rate_lookahead_seconds / 3600)))
          (st.segments.getD st.current_segment_index ⟨Rate.num 0, 0, 0⟩).target
      else
        max (st.segment_start_temp + r * (elapsed_wall / 3600) +
          clampTo cfg.max_target_divergence
            (r * (min elapsed_wall cfg.rate_lookahead_seconds / 3600)))
          (st.segments.getD st.current_segment_index
            ⟨Rate.num 0, 0, 0⟩).target) := by
    unfold calculate_rate_based_target
    rw [if_neg hne, if_neg (not_le.mpr hidx)]
    rw [if_neg (by rw [hphase]; intro h; cases h)]
    simp only [hrate]
    rw [if_neg hr]
    simp only [htime, if_true]
    rw [if_pos hstart]
    rw [lead_cap_eq_clamp _ _ hd]
  refine ⟨hmain, ?_, ?_⟩
  · intro hpos
    rw [hmain, if_pos hpos]
    exact min_le_right _ _
  · intro hneg
    rw [hmain, if_neg (by linarith : ¬ 0 < r)]
    exact le_max_right _ _

/-- C3 witness: one ramp segment (rate 100 °/hr toward 200) started at 65 °,
one hour in with a 60 s lookahead and a 50 ° cap: ceiling 165, lead 5/3,
target `min(165 + 5/3, 200) = 500/3`. -/
theorem rate_based_target_formula_witness :
    calculate_rate_based_target ⟨60, 50⟩
      ⟨[⟨Rate.num 100, 200, 0⟩], 0, Phase.ramp, 65, true⟩ 0 70 3600 =
      500 / 3 := by
  have h := rate_based_target_formula ⟨60, 50⟩
    ⟨[⟨Rate.num 100, 200, 0⟩], 0, Phase.ramp, 65, true⟩ 0 70 3600 100
    (by norm_num) (by simp) (by norm_num) rfl rfl (by norm_num) (by norm_num)
    rfl
  rw [h.1]
  norm_num [clampTo, min_def, max_def]

end Kiln

namespace Kiln

/-! ## Restart-state persistence throttle
(`Oven.save_automatic_restart_state` lines 1238–1252, `Oven.reset` line 374,
`Oven.abort_run` lines 469–474, `Oven.reset_if_schedule_ended`
lines 909–918) -/

/-- Persistence-relevant configuration. -/
structure PersistConfig where
  automatic_restarts : Bool
  state_save_interval : ℚ

/-- The persistence-relevant slice of `Oven` state: the throttle clock
`last_state_save` and a counter of snapshots actually written by
`save_state()` (the disk effect). -/
structure PersistState where
  last_state_save : ℚ
  snapshots_written : ℕ

/-- `Oven.save_state()`: one snapshot written to disk. -/
def save_state (st : PersistState) : PersistState :=
  { st with snapshots_written := st.snapshots_written + 1 }

/-- `Oven.save_automatic_restart_state()` at wall-clock `now`
(`time.time()`): skips entirely when the feature is off, skips when fewer
than `state_save_interval` seconds passed since `last_state_save`, otherwise
calls `save_state()` and stamps the clock. Returns the Python return value
and the updated state. -/
def save_automatic_restart_state (cfg : PersistConfig) (st : PersistState)
    (now : ℚ) : Bool × PersistState :=
  if ¬ cfg.automatic_restarts then (false, st)
  else if now - st.last_state_save < cfg.state_save_interval then (false, st)
  else (true, { save_state st with last_state_save := now })

/-- The persistence effect of `Oven.reset()`: `self.last_state_save = 0`. -/
def reset_persist (st : PersistState) : PersistState :=
  { st with last_state_save := 0 }

/-- The persistence tail of every safety-abort path
(`self.reset(); self.save_automatic_restart_state()`, as in `abort_run` and
the emergency/stall/runaway handlers). -/
def abort_run_persist (cfg : PersistConfig) (st : PersistState) (now : ℚ) :
    PersistState :=
  (save_automatic_restart_state cfg (reset_persist st) now).2

/-- The persistence effect of `Oven.reset_if_schedule_ended()`: on schedule
completion (`runtime > totaltime`) it calls `save_automatic_restart_state()`
**without** resetting first — the throttle clock keeps its value from the
periodic saves of the run loop. -/
def reset_if_schedule_ended_persist (cfg : PersistConfig) (st : PersistState)
    (runtime totaltime now : ℚ) : PersistState :=
  if runtime > totaltime then (save_automatic_restart_state cfg st now).2
  else st

end Kiln

namespace Kiln

/-- **C4 (code bug).** The claim — and the source's own comment at
oven.py line 1246 ("Critical state changes (like abort/complete) should call
save_state() directly") — says abort and completion snapshots bypass the
`state_save_interval` throttle. The completion path does not: with
`automatic_restarts` on, interval 60 s, a periodic save stamped at t = 970
and the schedule ending at t = 1000 (runtime 100 > totaltime 50),
`reset_if_schedule_ended` writes **no** snapshot (30 s < 60 s). The abort
path happens to bypass the throttle only because `reset()` zeroes
`last_state_save` first: at the same instant it does write one. -/
theorem completion_snapshot_throttled :
    (reset_if_schedule_ended_persist ⟨true, 60⟩ ⟨970, 5⟩ 100 50
      1000).snapshots_written = 5 ∧
    (abort_run_persist ⟨true, 60⟩ ⟨970, 5⟩ 1000).snapshots_written = 6 := by
  constructor
  · norm_num [reset_if_schedule_ended_persist, save_automatic_restart_state]
  · norm_num [abort_run_persist, save_automatic_restart_state, reset_persist,
      save_state]

end Kiln

namespace Kiln

/-! ## Real sensor sampling loop (`TempSensorReal.get_temperature` lines
154–169 and `TempSensorReal.run` lines 175–180, with `TempTracker` and
`ThermocoupleTracker`, lines 182–228) -/

/-- A classified thermocouple fault (`ThermocoupleError`): only its ignore
policy matters to the sampling loop. -/
structure TcError where
  ignore : Bool

/-- `TempTracker.add`: append, then delete from the front while longer than
`size`. -/
def TempTracker.add (size : ℕ) (temps : List ℚ) (temp : ℚ) : List ℚ :=
  let l := temps ++ [temp]
  l.drop (l.length - size)

/-- `ThermocoupleTracker.good()`: append `True`, drop the oldest entry. -/
def tracker_good (status : List Bool) : List Bool := (status ++ [true]).tail

/-- `ThermocoupleTracker.bad()`: append `False`, drop the oldest entry. -/
def tracker_bad (status : List Bool) : List Bool := (status ++ [false]).tail

/-- `TempSensorReal.get_temperature()`: a successful raw read is converted
to the system scale (`*9/5+32` when the scale is Fahrenheit) and counted
good; a classified fault returns `None`, counted good when its class is
ignorable and bad otherwise. `reading` stands for the outcome of
`self.raw_temp()`. -/
def get_temperature (scaleF : Bool) (status : List Bool)
    (reading : Except TcError ℚ) : Option ℚ × List Bool :=
  match reading with
  | .ok raw =>
    let temp := if scaleF then raw * 9 / 5 + 32 else raw
    (some temp, tracker_good status)
  | .error tce =>
    if tce.ignore then (none, tracker_good status)
    else (none, tracker_bad status)

/-- One iteration of `TempSensorReal.run()`: read, then
`if temp: self.temptracker.add(temp)` — the Python truthiness test admits a
value into the median window only when it is non-`None` **and nonzero**. -/
def sensorRunStep (size : ℕ) (scaleF : Bool) (temps : List ℚ)
    (status : List Bool) (reading : Except TcError ℚ) :
    List ℚ × List Bool :=
  let r := get_temperature scaleF status reading
  match r.1 with
  | some temp =>
    if temp ≠ 0 then (TempTracker.add size temps temp, r.2) else (temps, r.2)
  | none => (temps, r.2)

end Kiln

namespace Kiln

/-- **C10.** A successful hardware reading whose converted value is exactly
0 degrees is silently discarded by the sampling loop's truthiness test: the
median window is left unchanged — exactly as if the read had failed — while
the fault tracker still records a good sample. -/
theorem sensor_zero_reading_discarded (size : ℕ) (scaleF : Bool)
    (temps : List ℚ) (status : List Bool) (raw : ℚ)
    (hzero : (if scaleF then raw * 9 / 5 + 32 else raw) = 0) :
    sensorRunStep size scaleF temps status (Except.ok raw) =
      (temps, (status ++ [true]).tail) := by
  unfold sensorRunStep get_temperature
  dsimp only
  rw [if_neg (fun hc => hc hzero)]
  rw [tracker_good]

/-- C10 witness: Celsius scale, raw reading 0 °, window `[5, 6]`, fault ring
`[true, false]`: the window stays `[5, 6]` and the ring records a good
sample. -/
theorem sensor_zero_reading_discarded_witness :
    sensorRunStep 10 false [5, 6] [true, false] (Except.ok 0) =
      ([5, 6], [false, true]) := by
  have h := sensor_zero_reading_discarded 10 false [5, 6] [true, false] 0
    (by norm_num)
  rw [h]
  rfl

end Kiln

namespace Kiln

/-! ## Cooling-constant fit (`Oven.calculate_cooling_constant`,
oven.py lines 958–1035) -/

/-- Configuration read by the cooling fit. `temp_scale_c` models
`config.temp_scale.lower() == "c"`; `cooling_ambient_temp` is stored in
Fahrenheit and converted at use. -/
structure CoolingConfig where
  cooling_min_samples : ℕ
  temp_scale_c : Bool
  cooling_ambient_temp : ℚ

/-- The ambient temperature in the system scale. -/
def ambientTemp (cfg : CoolingConfig) : ℚ :=
  if cfg.temp_scale_c then (cfg.cooling_ambient_temp - 32) * 5 / 9
  else cfg.cooling_ambient_temp

/-- The loop that builds `x_values` / `y_values`: each `(timestamp, temp)`
sample yields `(t - t0, log((T - ambient) / (T0 - ambient)))` unless a skip
guard fires. `mlog` stands for `math.log`, which the rational embedding
takes as a parameter; every claim proved below holds for an arbitrary
`mlog`. -/
def coolingPoints (mlog : ℚ → ℚ) (ambient t0 T0 : ℚ)
    (cooling_temps : List (ℚ × ℚ)) : List (ℚ × ℚ) :=
  cooling_temps.filterMap (fun p =>
    let delta_t := p.1 - t0
    let temp_diff := p.2 - ambient
    let initial_diff := T0 - ambient
    if temp_diff ≤ 0 ∨ initial_diff ≤ 0 then none
    else
      let ratio := temp_diff / initial_diff
      if ratio ≤ 0 then none
      else some (delta_t, mlog ratio))

/-- The least-squares denominator `n * sum_xx - sum_x * sum_x`. -/
def regDenom (pts : List (ℚ × ℚ)) : ℚ :=
  let xs := pts.map Prod.fst
  (pts.length : ℚ) * (xs.map (fun x => x * x)).sum - xs.sum * xs.sum

/-- The fitted cooling constant: `k = -slope` of the regression
`slope = (n * sum_xy - sum_x * sum_y) / denominator`. -/
def fittedK (pts : List (ℚ × ℚ)) : ℚ :=
  let xs := pts.map Prod.fst
  let sum_x := xs.sum
  let sum_y := (pts.map Prod.snd).sum
  let sum_xy := (pts.map (fun p => p.1 * p.2)).sum
  let slope := ((pts.length : ℚ) * sum_xy - sum_x * sum_y) / regDenom pts
  let k := -slope
  k

/-- Shallow embedding of `Oven.calculate_cooling_constant`. The guards, in
source order: too few raw samples; first sample too close to ambient
(`abs(T0 - ambient) < 10`); too few valid log-linearised points; regression
denominator smaller than `1e-10` in absolute value; fitted `k` outside
`(0, 1]`. The `[]` branch of the match stands for the `IndexError` Python
would raise on `cooling_temps[0]`, unreachable whenever
`cooling_min_samples ≥ 1`. -/
def calculate_cooling_constant (cfg : CoolingConfig) (mlog : ℚ → ℚ)
    (cooling_temps : List (ℚ × ℚ)) : Option ℚ :=
  if cooling_temps.length < cfg.cooling_min_samples then none
  else
    match cooling_temps with
    | [] => none
    | (t0, T0) :: _ =>
      if |T0 - ambientTemp cfg| < 10 then none
      else
        let pts := coolingPoints mlog (ambientTemp cfg) t0 T0 cooling_temps
        if pts.length < cfg.cooling_min_samples then none
        else if |regDenom pts| < 1 / 10 ^ 10 then none
        else if fittedK pts ≤ 0 ∨ fittedK pts > 1 then none
        else some (fittedK pts)

end Kiln

namespace Kiln

/-- **C9.** With at least one sample required (`cooling_min_samples ≥ 1`,
so the source never indexes an empty list): `calculate_cooling_constant`
returns a constant `k` if and only if the first sample differs from ambient
by at least 10 degrees, at least `cooling_min_samples` valid log-linearised
points remain, the regression denominator is at least `1e-10` in absolute
value, and the fitted `k` lies in `(0, 1]`; in every other case it returns
`None`. -/
theorem cooling_constant_accept_iff (cfg : CoolingConfig) (mlog : ℚ → ℚ)
    (temps : List (ℚ × ℚ)) (k : ℚ) (hmin : 1 ≤ cfg.cooling_min_samples) :
    calculate_cooling_constant cfg mlog temps = some k ↔
      ∃ t0 T0 rest, temps = (t0, T0) :: rest ∧
        10 ≤ |T0 - ambientTemp cfg| ∧
        cfg.cooling_min_samples ≤
          (coolingPoints mlog (ambientTemp cfg) t0 T0 temps).length ∧
        1 / 10 ^ 10 ≤
          |regDenom (coolingPoints mlog (ambientTemp cfg) t0 T0 temps)| ∧
        k = fittedK (coolingPoints mlog (ambientTemp cfg) t0 T0 temps) ∧
        0 < k ∧ k ≤ 1 := by
  constructor
  · intro h
    unfold calculate_cooling_constant at h
    by_cases hlen : temps.length < cfg.cooling_min_samples
    · rw [if_pos hlen] at h
      exact absurd h (by simp)
    rw [if_neg hlen] at h
    cases temps with
    | nil => exact absurd h (by simp)
    | cons p rest =>
      obtain ⟨t0, T0⟩ := p
      dsimp only at h
      by_cases h10 : |T0 - ambientTemp cfg| < 10
      · rw [if_pos h10] at h
        exact absurd h (by simp)
      rw [if_neg h10] at h
      by_cases hplen : (coolingPoints mlog (ambientTemp cfg) t0 T0
          ((t0, T0) :: rest)).length < cfg.cooling_min_samples
      · rw [if_pos hplen] at h
        exact absurd h (by simp)
      rw [if_neg hplen] at h
      by_cases hden : |regDenom (coolingPoints mlog (ambientTemp cfg) t0 T0
          ((t0, T0) :: rest))| < 1 / 10 ^ 10
      · rw [if_pos hden] at h
        exact absurd h (by simp)
      rw [if_neg hden] at h
      by_cases hk : fittedK (coolingPoints mlog (ambientTemp cfg) t0 T0
          ((t0, T0) :: rest)) ≤ 0 ∨
          fittedK (coolingPoints mlog (ambientTemp cfg) t0 T0
            ((t0, T0) :: rest)) > 1
      · rw [if_pos hk] at h
        exact absurd h (by simp)
      rw [if_neg hk] at h
      simp only [Option.some.injEq] at h
      push_neg at h10 hplen hden hk
      refine ⟨t0, T0, rest, rfl, h10, hplen, hden, h.symm, ?_, ?_⟩
      · rw [h] at hk
        exact hk.1
      · rw [h] at hk
        exact hk.2
  · rintro ⟨t0, T0, rest, rfl, h10, hplen, hden, hk, hk0, hk1⟩
    unfold calculate_cooling_constant
    have hle : (coolingPoints mlog (ambientTemp cfg) t0 T0
        ((t0, T0) :: rest)).length ≤ ((t0, T0) :: rest).length := by
      unfold coolingPoints
      exact List.length_filterMap_le _ _
    rw [if_neg (not_lt.mpr (le_trans hplen hle))]
    show (if |T0 - ambientTemp cfg| < 10 then none
      else if (coolingPoints mlog (ambientTemp cfg) t0 T0
          ((t0, T0) :: rest)).length < cfg.cooling_min_samples then none
      else if |regDenom (coolingPoints mlog (ambientTemp cfg) t0 T0
          ((t0, T0) :: rest))| < 1 / 10 ^ 10 then none
      else if fittedK (coolingPoints mlog (ambientTemp cfg) t0 T0
            ((t0, T0) :: rest)) ≤ 0 ∨
          fittedK (coolingPoints mlog (ambientTemp cfg) t0 T0
            ((t0, T0) :: rest)) > 1 then none
      else some (fittedK (coolingPoints mlog (ambientTemp cfg) t0 T0
        ((t0, T0) :: rest)))) = some k
    rw [if_neg (not_lt.mpr h10)]
    rw [if_neg (not_lt.mpr hplen)]
    rw [if_neg (not_lt.mpr hden)]
    rw [if_neg (by push_neg; rw [← hk]; exact ⟨hk0, hk1⟩)]
    rw [hk]

/-- C9 witness: ambient 65 °F, two samples `(0, 165)` and `(1, 164)`, the
log surrogate `q ↦ q − 1`: both samples survive the filters, the denominator
is 1, and the fitted `k = 1/100 ∈ (0, 1]` is accepted. -/
theorem cooling_constant_accept_iff_witness :
    calculate_cooling_constant ⟨2, false, 65⟩ (fun q => q - 1)
      [(0, 165), (1, 164)] = some (1 / 100) := by
  have hpts : coolingPoints (fun q => q - 1) (ambientTemp ⟨2, false, 65⟩) 0 165
      [(0, 165), (1, 164)] = [(0, 0), (1, -(1 / 100))] := by
    norm_num [coolingPoints, ambientTemp, List.filterMap_cons]
  apply (cooling_constant_accept_iff ⟨2, false, 65⟩ (fun q => q - 1)
    [(0, 165), (1, 164)] (1 / 100) (by norm_num)).mpr
  refine ⟨0, 165, [(1, 164)], rfl, ?_, ?_, ?_, ?_, by norm_num, by norm_num⟩
  · norm_num [ambientTemp]
  · rw [hpts]
    norm_num
  · rw [hpts]
    norm_num [regDenom]
  · rw [hpts]
    norm_num [fittedK, regDenom]

end Kiln
